import Mathlib

/-!
Formal model of the GhostWriter codebase (RAG service, analytics service,
model manager and the loopback HTTP routes), shallowly embedded in Lean.

Strings are modelled by Lean `String` (the relevant content is ASCII, where
JavaScript string semantics and Lean's agree); JavaScript numbers are
modelled by `ℝ` (for the similarity / metric formulas) or by `Nat`/`Int`
(for counters and scores); `null`/`undefined` are modelled by `Option`.
-/

/-! ## JavaScript string helpers (Node `path` module, truthiness) -/

/-- Truthiness of a nullable JavaScript string: `null`, `undefined` and the
empty string are falsy, every other string is truthy. -/
def jsTruthyStr : Option String → Bool
  | none => false
  | some s => !s.isEmpty

/-- Lower-casing a string character by character, as `String.toLowerCase`
does on ASCII input. -/
def jsToLower (s : String) : String :=
  String.mk (s.toList.map Char.toLower)

/-- Node's `path.basename`/`path.extname` ignore trailing separators. -/
def dropTrailingSlashes (cs : List Char) : List Char :=
  (cs.reverse.dropWhile (fun c => c = '/')).reverse

/-- The characters after the last `/` of a path (the whole list when the
path has no separator). -/
def afterLastSlash (cs : List Char) : List Char :=
  cs.foldl (fun acc c => if c = '/' then [] else acc.concat c) []

/-- Model of Node `path.basename` on POSIX paths. -/
def jsBasename (p : String) : String :=
  String.mk (afterLastSlash (dropTrailingSlashes p.toList))

/-- The extension of a basename: the substring starting at the last `.`,
except that a `.` at position 0 (a dotfile such as `.env`) yields no
extension, exactly as Node `path.extname` behaves. -/
def extOfBasename (cs : List Char) : List Char :=
  let rev := cs.reverse
  let afterRev := rev.takeWhile (fun c => c ≠ '.')
  if afterRev.length = rev.length then []
  else
    let beforeDotRev := rev.drop (afterRev.length + 1)
    if beforeDotRev.isEmpty then []
    else '.' :: afterRev.reverse

/-- Model of Node `path.extname` on POSIX paths. -/
def jsExtname (p : String) : String :=
  String.mk (extOfBasename (afterLastSlash (dropTrailingSlashes p.toList)))

/-! ## RAGService.getFileType (services/ragService.js, lines 150-193)

The if-chain is reproduced in the source's exact order: every extension
test runs before the basename tests for special files, so a basename test
can only fire when no extension rule matched first. -/

/-- Model of `RAGService.getFileType`. -/
def getFileType (filePath : String) : String :=
  let ext := jsToLower (jsExtname filePath)
  let base := jsToLower (jsBasename filePath)
  if ext ∈ [".js", ".jsx", ".ts", ".tsx"] then "javascript"
  else if ext ∈ [".py"] then "python"
  else if ext ∈ [".java"] then "java"
  else if ext ∈ [".cpp", ".cc", ".cxx", ".c++"] then "cpp"
  else if ext ∈ [".c", ".h"] then "c"
  else if ext ∈ [".cs"] then "csharp"
  else if ext ∈ [".php"] then "php"
  else if ext ∈ [".rb"] then "ruby"
  else if ext ∈ [".go"] then "go"
  else if ext ∈ [".rs"] then "rust"
  else if ext ∈ [".kt"] then "kotlin"
  else if ext ∈ [".swift"] then "swift"
  else if ext ∈ [".html", ".htm"] then "html"
  else if ext ∈ [".css", ".scss", ".sass", ".less"] then "css"
  else if ext ∈ [".vue"] then "vue"
  else if ext ∈ [".json"] then "json"
  else if ext ∈ [".yaml", ".yml"] then "yaml"
  else if ext ∈ [".xml"] then "xml"
  else if ext ∈ [".toml"] then "toml"
  else if ext ∈ [".ini"] then "ini"
  else if ext ∈ [".md", ".markdown"] then "markdown"
  else if ext ∈ [".txt"] then "text"
  else if ext ∈ [".rst"] then "rst"
  else if base ∈ ["package.json"] then "package-config"
  else if base ∈ ["dockerfile"] then "docker"
  else if base ∈ [".env", ".env.example"] then "environment"
  else if base ∈ ["makefile"] then "makefile"
  else if ext ∈ [".sh", ".bash"] then "bash"
  else "unknown"

/-! ## AnalyticsService.calculateSecurityScore (analyticsSchema.js part 2, lines 231-246) -/

/-- Characters matched by the JavaScript regex class `\s` (the ASCII ones,
which are the only ones the vulnerability patterns can meet in practice). -/
def jsWhitespace (c : Char) : Bool :=
  c = ' ' || c = '\t' || c = '\n' || c = '\r' || c = '\x0b' || c = '\x0c'

/-- Strip an expected literal prefix from a character list, returning the
remainder on success. -/
def stripLit : List Char → List Char → Option (List Char)
  | [], cs => some cs
  | _ :: _, [] => none
  | l :: ls, c :: cs => if c = l then stripLit ls cs else none

/-- Does the character list start with `lit`, then zero or more whitespace
characters, then the single character `ch`? (The shape of the regexes
`eval\s*\(`, `innerHTML\s*=`, `sql\s*\+`, `password\s*=`.) -/
def litWsCharAt (lit : List Char) (ch : Char) (cs : List Char) : Bool :=
  match stripLit lit cs with
  | none => false
  | some rest =>
    match rest.dropWhile jsWhitespace with
    | [] => false
    | c :: _ => c = ch

/-- Does `content` contain `lit` followed by optional whitespace and `ch`
anywhere? -/
def containsLitWsChar (lit : String) (ch : Char) (content : String) : Bool :=
  content.toList.tails.any (litWsCharAt lit.toList ch)

/-- Does `content` contain the literal `lit` anywhere? -/
def containsLit (lit : String) (content : String) : Bool :=
  content.toList.tails.any (fun cs => lit.toList.isPrefixOf cs)

/-- Regex `eval\s*\(` as a Boolean match. -/
def evalPattern (content : String) : Bool := containsLitWsChar "eval" '(' content

/-- Regex `innerHTML\s*=` as a Boolean match. -/
def innerHTMLPattern (content : String) : Bool := containsLitWsChar "innerHTML" '=' content

/-- Regex `document\.write` as a Boolean match. -/
def documentWritePattern (content : String) : Bool := containsLit "document.write" content

/-- Regex `sql\s*\+` as a Boolean match. -/
def sqlConcatPattern (content : String) : Bool := containsLitWsChar "sql" '+' content

/-- Regex `password\s*=` as a Boolean match. -/
def passwordPattern (content : String) : Bool := containsLitWsChar "password" '=' content

/-- The vulnerability table of `calculateSecurityScore`: pattern and fixed
penalty, in source order. -/
def securityVulnerabilities : List ((String → Bool) × Int) :=
  [(evalPattern, 20), (innerHTMLPattern, 15), (documentWritePattern, 15),
   (sqlConcatPattern, 10), (passwordPattern, 5)]

/-- Model of `AnalyticsService.calculateSecurityScore`: start from 100,
subtract each matched pattern's penalty once, floor at 0. -/
def calculateSecurityScore (content : String) : Int :=
  max 0 (securityVulnerabilities.foldl
    (fun score v => if v.1 content then score - v.2 else score) 100)

/-! ## AnalyticsService.calculateCodeMetrics, maintainability index
(analyticsSchema.js part 2, line 205)

The index is computed from the three already-derived quantities
`cyclomaticComplexity`, `linesOfCode` and `commentRat` exactly as the
source line does; `Math.log` is the natural logarithm. -/

/-- Model of the maintainability-index line of
`AnalyticsService.calculateCodeMetrics`. -/
noncomputable def maintainabilityIndex (cc loc cr : ℝ) : ℝ :=
  max 0 (171 - 5.2 * Real.log cc - 0.23 * Real.log loc - 16.2 * Real.log (cr + 0.1))

/-! ## RAGService.cosine (services/ragService.js, lines 331-340) -/

/-- The dot product accumulated by the loop of `RAGService.cosine`. -/
def dotSum (a b : List ℝ) : ℝ := (List.zipWith (fun x y => x * y) a b).sum

/-- The squared-norm accumulator of the loop of `RAGService.cosine`. -/
def sqSum (a : List ℝ) : ℝ := (a.map (fun x => x * x)).sum

/-- Model of `RAGService.cosine`: `-1` when either vector is absent or the
lengths differ, otherwise `dot / (sqrt(na) * sqrt(nb) + 1e-8)`. -/
noncomputable def cosine : Option (List ℝ) → Option (List ℝ) → ℝ
  | none, _ => -1
  | some _, none => -1
  | some a, some b =>
    if a.length ≠ b.length then -1
    else dotSum a b / (Real.sqrt (sqSum a) * Real.sqrt (sqSum b) + 1 / 100000000)

/-! ## ModelManager (services/modelManager.js, analyticsSchema.js part 3)

The persisted configuration is a flat record. `lastUpdated` (stamped by
every `saveConfig`) and the constant `version` field are not modelled;
every mutation of the in-memory configuration in the paths below is
followed by a `saveConfig`, so the in-memory record here also stands for
the persisted file. External effects (constructing and initializing the
Ollama and Gemini adapters) are abstracted by an `InitEnv` oracle saying
whether each adapter's initialization succeeds; a thrown JavaScript error
is modelled as a `some` error message next to the post-call configuration. -/

/-- The persisted GhostWriter configuration record. -/
structure MMConfig where
  llmProvider : String
  embeddingProvider : String
  ollamaModel : String
  geminiApiKey : Option String
  huggingfaceApiKey : Option String
  openaiApiKey : Option String
deriving DecidableEq, Repr

/-- The default configuration created by `loadConfig` on first run. -/
def defaultConfig : MMConfig :=
  { llmProvider := "ollama", embeddingProvider := "ollama", ollamaModel := "phi3:mini",
    geminiApiKey := none, huggingfaceApiKey := none, openaiApiKey := none }

/-- Whether the external adapter initializations succeed: Ollama's local
runtime check, and Gemini's live key validation for a given key. -/
structure InitEnv where
  ollamaOk : Bool
  geminiOk : String → Bool

/-- The `case 'ollama'` arm of `initializeLLM`: construct and initialize
the Ollama adapter, failing when the local runtime is unavailable. -/
def initializeLLMOllama (env : InitEnv) (cfg : MMConfig) : MMConfig × Option String :=
  (cfg, if env.ollamaOk then none else some "ollama-init-failed")

/-- Model of `ModelManager.initializeLLM`: Ollama initializes directly;
Gemini without a (truthy) key silently falls back to Ollama, persists the
fallback and retries recursively — the retry runs with `llmProvider =
"ollama"`, so it resolves in one step to the Ollama arm, which is inlined
here; any other provider name is a fatal error. Returns the
possibly-mutated configuration and the thrown error, if any. -/
def initializeLLM (env : InitEnv) (cfg : MMConfig) : MMConfig × Option String :=
  if cfg.llmProvider = "ollama" then
    initializeLLMOllama env cfg
  else if cfg.llmProvider = "gemini" then
    if jsTruthyStr cfg.geminiApiKey then
      (cfg, if env.geminiOk (cfg.geminiApiKey.getD "") then none else some "gemini-init-failed")
    else
      initializeLLMOllama env { cfg with llmProvider := "ollama" }
  else
    (cfg, some ("Unsupported LLM provider: " ++ cfg.llmProvider))

/-- The `options` argument of `setLLMProvider`. -/
structure LLMOptions where
  apiKey : Option String
  model : Option String

/-- The first half of `setLLMProvider`, before the `saveConfig` call:
apply the requested provider, persist a supplied Gemini API key when
switching to Gemini, persist a supplied model name when switching to
Ollama. -/
def applyLLMOptions (cfg0 : MMConfig) (provider : String)
    (options : LLMOptions) : MMConfig :=
  let cfg1 := { cfg0 with llmProvider := provider }
  let cfg2 := if provider = "gemini" ∧ jsTruthyStr options.apiKey = true then
      { cfg1 with geminiApiKey := options.apiKey } else cfg1
  if provider = "ollama" ∧ jsTruthyStr options.model = true then
      { cfg2 with ollamaModel := options.model.getD "" } else cfg2

/-- Model of `ModelManager.setLLMProvider`: record the previous provider,
apply the requested provider and options (`applyLLMOptions`), save, and
re-initialize. On failure, restore only the `llmProvider` field, save,
re-initialize with the restored provider, and rethrow the original error
(unless the rollback initialization itself fails, in which case that
error propagates instead). -/
def setLLMProvider (env : InitEnv) (cfg0 : MMConfig) (provider : String)
    (options : LLMOptions) : MMConfig × Option String :=
  let previousProvider := cfg0.llmProvider
  let cfg3 := applyLLMOptions cfg0 provider options
  match initializeLLM env cfg3 with
  | (cfg4, none) => (cfg4, none)
  | (cfg4, some err) =>
    let cfgR := { cfg4 with llmProvider := previousProvider }
    match initializeLLM env cfgR with
    | (cfg5, none) => (cfg5, some err)
    | (cfg5, some err2) => (cfg5, some err2)

/-- Model of `ModelManager.initializeEmbedding` composed with
`EmbeddingService.initialize`: the three supported providers initialize
without any connectivity test; any other provider name throws. -/
def initializeEmbedding (cfg : MMConfig) : Option String :=
  if cfg.embeddingProvider = "ollama" ∨ cfg.embeddingProvider = "huggingface"
      ∨ cfg.embeddingProvider = "openai" then none
  else some ("Unsupported embedding provider: " ++ cfg.embeddingProvider)

/-- Model of `ModelManager.setEmbeddingProvider`: apply the provider,
persist a supplied key into the matching field, save, re-initialize.
There is no rollback on failure. -/
def setEmbeddingProvider (cfg0 : MMConfig) (provider : String)
    (apiKey : Option String) : MMConfig × Option String :=
  let cfg1 := { cfg0 with embeddingProvider := provider }
  let cfg2 :=
    if jsTruthyStr apiKey = true then
      if provider = "huggingface" then { cfg1 with huggingfaceApiKey := apiKey }
      else if provider = "openai" then { cfg1 with openaiApiKey := apiKey }
      else cfg1
    else cfg1
  (cfg2, initializeEmbedding cfg2)

/-- The stored key for a provider name, as selected by the `switch` in
`getMaskedApiKey` (unknown providers leave the key `null`). -/
def keyForProvider (cfg : MMConfig) (provider : String) : Option String :=
  if provider = "gemini" then cfg.geminiApiKey
  else if provider = "huggingface" then cfg.huggingfaceApiKey
  else if provider = "openai" then cfg.openaiApiKey
  else none

/-- Model of `ModelManager.getMaskedApiKey`: no (truthy) key gives `null`;
a key longer than 12 characters shows its first 8 and last 4 characters
around an ellipsis; a shorter key shows its first 4 characters only. -/
def getMaskedApiKey (cfg : MMConfig) (provider : String) : Option String :=
  match keyForProvider cfg provider with
  | none => none
  | some k =>
    if k.isEmpty then none
    else if 12 < k.length then
      some (k.take 8 ++ "..." ++ (k.drop (k.length - 4)))
    else some (k.take 4 ++ "...")

/-- Model of `ModelManager.isProviderConfigured`: Ollama always, Gemini
iff a truthy key is stored, anything else never. -/
def isProviderConfigured (cfg : MMConfig) (provider : String) : Bool :=
  if provider = "ollama" then true
  else if provider = "gemini" then jsTruthyStr cfg.geminiApiKey
  else false

/-- The masked-keys object attached by `getConfig`. -/
structure MaskedKeys where
  gemini : Option String
  huggingface : Option String
  openai : Option String
deriving DecidableEq, Repr

/-- The provider-status object attached by `getConfig`. -/
structure ConfiguredFlags where
  ollama : Bool
  gemini : Bool
deriving DecidableEq, Repr

/-- The value returned by `getConfig`: the spread of the persisted
configuration (raw key fields included) plus the two derived objects. -/
structure PublicConfig where
  llmProvider : String
  embeddingProvider : String
  ollamaModel : String
  geminiApiKey : Option String
  huggingfaceApiKey : Option String
  openaiApiKey : Option String
  maskedKeys : MaskedKeys
  configured : ConfiguredFlags
deriving DecidableEq, Repr

/-- Model of `ModelManager.getConfig`: `\x7b ...this.config, maskedKeys,
configured \x7d` — the spread copies every raw field of the configuration
into the returned object. -/
def getConfig (cfg : MMConfig) : PublicConfig :=
  { llmProvider := cfg.llmProvider, embeddingProvider := cfg.embeddingProvider,
    ollamaModel := cfg.ollamaModel,
    geminiApiKey := cfg.geminiApiKey, huggingfaceApiKey := cfg.huggingfaceApiKey,
    openaiApiKey := cfg.openaiApiKey,
    maskedKeys := { gemini := getMaskedApiKey cfg "gemini",
                    huggingface := getMaskedApiKey cfg "huggingface",
                    openai := getMaskedApiKey cfg "openai" },
    configured := { ollama := isProviderConfigured cfg "ollama",
                    gemini := isProviderConfigured cfg "gemini" } }

/-! ## RAGService document store and operations (services/ragService.js)

A row of the `documents` table is `(id, text, metadata, embedding)`;
`created_at` (a database default) carries no information the claims use
and is not modelled. The embedding type is a parameter `E` (the service
stores whatever vector the active embedding adapter returned; search
instantiates `E` with `List ℝ`). External effects — the embedding adapter
call inside `ingestDocument`, and the generated document ids
(`doc-<timestamp>-<random>`) — enter the model as explicit arguments: an
`Except`-valued embedding outcome per call and an id-supply function.
Content cleaning (`cleanFileContent`) is likewise passed as a function
argument `clean`; the properties below hold for every cleaning function. -/

/-- The per-document metadata record built by ingestion. -/
structure DocMetadata where
  project_name : String
  file_path : String
  author : String
  commit_message : String
  commit_date : String
  ingested_at : Option String
  file_type : String
  commit_hash : Option String
deriving DecidableEq, Repr

/-- One row of the `documents` table. -/
structure DocRow (E : Type) where
  id : String
  text : String
  metadata : DocMetadata
  embedding : E
deriving DecidableEq, Repr

/-- The ids present in the store. -/
def dbIds {E : Type} (db : List (DocRow E)) : List String :=
  db.map (fun r => r.id)

/-- The `INSERT ... ON CONFLICT(id) DO UPDATE SET text, metadata,
embedding` statement of `ingestDocument`: replace the row's payload when
the id exists, append a new row otherwise. -/
def upsert {E : Type} (db : List (DocRow E)) (r : DocRow E) : List (DocRow E) :=
  if db.any (fun x => x.id == r.id) then
    db.map (fun x => if x.id == r.id then
      { x with text := r.text, metadata := r.metadata, embedding := r.embedding } else x)
  else db ++ [r]

/-- Model of `RAGService.ingestDocument`: embed (which may throw), then
upsert the row under the freshly generated id; on a thrown embedding
error the store is untouched and the error propagates. -/
def ingestDocument {E : Type} (db : List (DocRow E)) (id text : String)
    (md : DocMetadata) (embedResult : Except String E) :
    List (DocRow E) × Except String String :=
  match embedResult with
  | .error e => (db, .error e)
  | .ok emb => (upsert db { id := id, text := text, metadata := md, embedding := emb }, .ok id)

/-- One file of a commit payload. -/
structure IngestFile where
  path : String
  content : String
deriving DecidableEq, Repr

/-- The commit-level metadata of a payload (`author`, `commit-message`,
`date`, optional `hash`). -/
structure CommitMeta where
  author : String
  commitMessage : String
  date : String
  hash : Option String
deriving DecidableEq, Repr

/-- The merged per-file metadata built at the top of the `ingestCommit`
loop. -/
def fileMetadataFor (pn : String) (meta : CommitMeta) (now : String)
    (f : IngestFile) : DocMetadata :=
  { project_name := pn, file_path := f.path, author := meta.author,
    commit_message := meta.commitMessage, commit_date := meta.date,
    ingested_at := some now, file_type := getFileType f.path,
    commit_hash := meta.hash }

/-- One entry of the `results` array of an `ingestCommit` summary. -/
structure FileResult where
  file_path : String
  document_id : Option String
  status : String
  content_length : Option Nat
  error : Option String
deriving DecidableEq, Repr

/-- The skip test of the `ingestCommit` loop: the cleaned content is
falsy or trims to the empty string. -/
def skipsFile (clean : String → String → String) (f : IngestFile) : Bool :=
  (clean f.content f.path).trim == ""

/-- The result entry `ingestCommit` records for a non-skipped file: a
success entry carrying the document id and cleaned length, or an error
entry carrying the thrown message. -/
def fileOutcome {E : Type} (clean : String → String → String)
    (idOf : IngestFile → String) (embedOf : IngestFile → Except String E)
    (f : IngestFile) : FileResult :=
  match embedOf f with
  | .ok _ =>
    { file_path := f.path, document_id := some (idOf f), status := "success",
      content_length := some (clean f.content f.path).length, error := none }
  | .error e =>
    { file_path := f.path, document_id := none, status := "error",
      content_length := none, error := some e }

/-- The `for (const file of files)` loop of `ingestCommit`: skip files
with empty cleaned content, otherwise ingest and record a success or
error entry, never aborting the remaining files. -/
def ingestCommitGo {E : Type} (clean : String → String → String)
    (idOf : IngestFile → String) (embedOf : IngestFile → Except String E)
    (pn : String) (meta : CommitMeta) (now : String) :
    List (DocRow E) → List IngestFile → List (DocRow E) × List FileResult
  | db, [] => (db, [])
  | db, f :: rest =>
    if skipsFile clean f then
      ingestCommitGo clean idOf embedOf pn meta now db rest
    else
      match ingestDocument db (idOf f) (clean f.content f.path)
          (fileMetadataFor pn meta now f) (embedOf f) with
      | (db2, .ok docId) =>
        let next := ingestCommitGo clean idOf embedOf pn meta now db2 rest
        (next.1,
          { file_path := f.path, document_id := some docId, status := "success",
            content_length := some (clean f.content f.path).length, error := none } :: next.2)
      | (db2, .error e) =>
        let next := ingestCommitGo clean idOf embedOf pn meta now db2 rest
        (next.1,
          { file_path := f.path, document_id := none, status := "error",
            content_length := none, error := some e } :: next.2)

/-- The summary object returned by `ingestCommit`. -/
structure CommitSummary where
  project_name : String
  commit_metadata : CommitMeta
  total_files : Nat
  successful : Nat
  failed : Nat
  results : List FileResult
deriving DecidableEq, Repr

/-- Model of `RAGService.ingestCommit`: run the per-file loop, then count
the success and error entries of the collected results. -/
def ingestCommit {E : Type} (clean : String → String → String)
    (idOf : IngestFile → String) (embedOf : IngestFile → Except String E)
    (pn : String) (meta : CommitMeta) (now : String)
    (db : List (DocRow E)) (files : List IngestFile) :
    List (DocRow E) × CommitSummary :=
  let run := ingestCommitGo clean idOf embedOf pn meta now db files
  (run.1,
    { project_name := pn, commit_metadata := meta, total_files := files.length,
      successful := (run.2.filter (fun r => r.status == "success")).length,
      failed := (run.2.filter (fun r => r.status == "error")).length,
      results := run.2 })

/-- The synthetic text of demo document `i` in `bulkIngestDemo`. -/
def demoText (i : Nat) : String :=
  "// Demo function " ++ toString i ++ "\nfunction demoFunction" ++ toString i ++
  "(input) \x7b\n  // This function multiplies input by " ++ toString (i + 1) ++
  "\n  return input * " ++ toString (i + 1) ++ ";\n\x7d"

/-- The fixed author rotation of `bulkIngestDemo`. -/
def demoAuthors : List String := ["Alice", "Bob", "Charlie"]

/-- The metadata of demo document `i` (the demo object carries no
`ingested_at` and no `commit_hash` field). -/
def demoMetadata (i : Nat) (today : String) : DocMetadata :=
  { project_name := "demo-project",
    file_path := "src/demo/file" ++ toString i ++ ".js",
    author := demoAuthors.getD (i % 3) "",
    commit_message := "Add demo function " ++ toString i,
    commit_date := today, ingested_at := none,
    file_type := "javascript", commit_hash := none }

/-- The `for (let i = 0; i < count; i++)` loop of `bulkIngestDemo`: ingest
each demo document in turn; a thrown error aborts the remaining
iterations and propagates (there is no try/catch here). -/
def bulkIngestDemoGo {E : Type} (idOf : Nat → String)
    (embedOf : Nat → Except String E) (today : String) :
    Nat → Nat → List (DocRow E) → List (DocRow E) × Except String Nat
  | _, 0, db => (db, .ok 0)
  | i, n + 1, db =>
    match ingestDocument db (idOf i) (demoText i) (demoMetadata i today) (embedOf i) with
    | (db2, .ok _) =>
      match bulkIngestDemoGo idOf embedOf today (i + 1) n db2 with
      | (db3, .ok c) => (db3, .ok (c + 1))
      | (db3, .error e) => (db3, .error e)
    | (db2, .error e) => (db2, .error e)

/-- Model of `RAGService.bulkIngestDemo`. -/
def bulkIngestDemo {E : Type} (idOf : Nat → String)
    (embedOf : Nat → Except String E) (today : String) (count : Nat)
    (db : List (DocRow E)) : List (DocRow E) × Except String Nat :=
  bulkIngestDemoGo idOf embedOf today 0 count db

/-! ## RAGService.searchAndGenerate (services/ragService.js, lines 225-294)

The returned `sources` array is modelled with the raw cosine score in
place of its `(score * 100).toFixed(1) + "%"` string rendering (a
presentation detail); every other field is carried verbatim. -/

/-- One entry of the `sources` array returned by `searchAndGenerate`. -/
structure SearchSource where
  file_path : String
  author : String
  commit_message : String
  commit_date : String
  relevance : ℝ
  preview : String

/-- The optional project filter applied before scoring. -/
def filteredDocs (pn : Option String) (db : List (DocRow (List ℝ))) :
    List (DocRow (List ℝ)) :=
  match pn with
  | none => db
  | some p => db.filter (fun d => d.metadata.project_name == p)

/-- Pair every document with its cosine score against the query
embedding. -/
noncomputable def scoreDocs (queryEmb : List ℝ) (docs : List (DocRow (List ℝ))) :
    List (DocRow (List ℝ) × ℝ) :=
  docs.map (fun d => (d, cosine (some queryEmb) (some d.embedding)))

/-- The `scored.sort((a, b) => b.score - a.score)` step: a stable sort
placing higher scores first. -/
noncomputable def sortByScoreDesc (scored : List (DocRow (List ℝ) × ℝ)) :
    List (DocRow (List ℝ) × ℝ) :=
  scored.mergeSort (fun x y => decide (y.2 ≤ x.2))

/-- Build one `sources` entry from a scored document. -/
noncomputable def mkSource (ds : DocRow (List ℝ) × ℝ) : SearchSource :=
  { file_path := ds.1.metadata.file_path, author := ds.1.metadata.author,
    commit_message := ds.1.metadata.commit_message,
    commit_date := ds.1.metadata.commit_date,
    relevance := ds.2, preview := ds.1.text }

/-- Model of the retrieval pipeline of `RAGService.searchAndGenerate`:
filter by project, score every remaining document, sort descending, keep
the first `k`, and return one source entry per kept document — with no
relevance cutoff of any kind. -/
noncomputable def searchSources (queryEmb : List ℝ) (db : List (DocRow (List ℝ)))
    (k : Nat) (pn : Option String) : List SearchSource :=
  ((sortByScoreDesc (scoreDocs queryEmb (filteredDocs pn db))).take k).map mkSource

/-! ## The RAG Service operations as store transformers (for the
no-deletion invariant)

Each constructor carries the operation's inputs plus the external
outcomes (ids, embedding results) of the calls it performs.
`searchAndGenerate` and `getProjects` only run `SELECT` statements and
adapter calls, so they leave the store unchanged by construction. -/

inductive RagOp (E : Type) where
  | ingestDoc (id text : String) (md : DocMetadata) (embedResult : Except String E)
  | ingestCommitOp (clean : String → String → String) (idOf : IngestFile → String)
      (embedOf : IngestFile → Except String E) (pn : String) (meta : CommitMeta)
      (now : String) (files : List IngestFile)
  | searchOp (queryEmb : List ℝ) (k : Nat) (pn : Option String)
  | getProjectsOp
  | bulkIngestDemoOp (count : Nat) (idOf : Nat → String)
      (embedOf : Nat → Except String E) (today : String)

/-- The effect of one RAG Service operation on the documents store. -/
def applyOp {E : Type} : RagOp E → List (DocRow E) → List (DocRow E)
  | .ingestDoc id text md er, db => (ingestDocument db id text md er).1
  | .ingestCommitOp clean idOf embedOf pn meta now files, db =>
    (ingestCommit clean idOf embedOf pn meta now db files).1
  | .searchOp _ _ _, db => db
  | .getProjectsOp, db => db
  | .bulkIngestDemoOp count idOf embedOf today, db =>
    (bulkIngestDemo idOf embedOf today count db).1

/-- Run a sequence of RAG Service operations. -/
def runOps {E : Type} (ops : List (RagOp E)) (db : List (DocRow E)) : List (DocRow E) :=
  ops.foldl (fun acc op => applyOp op acc) db

/-- A concrete metadata record for evaluating the store operations. -/
def sampleMetadata : DocMetadata :=
  { project_name := "demo-project", file_path := "src/a.js", author := "Alice",
    commit_message := "add a", commit_date := "2024-01-01",
    ingested_at := some "2024-01-01T00:00:00Z", file_type := "javascript",
    commit_hash := none }

/-- A configuration with a stored Gemini API key, used to evaluate
`getConfig` on concrete data. -/
def sampleGeminiConfig : MMConfig :=
  { llmProvider := "gemini", embeddingProvider := "ollama", ollamaModel := "phi3:mini",
    geminiApiKey := some "AIzaSy-SECRET-KEY-12345",
    huggingfaceApiKey := none, openaiApiKey := none }

/-! ## The loopback HTTP routes of setupCLIServer (desktop shell main file)

Each route is modelled by the response it produces from its request fields
and the outcome of the awaited service call (`Except.ok` for a resolved
call with some payload of type `α`, `Except.error` for a thrown error).
Only the response's HTTP status, `success` flag and `error` field are
modelled; Express sends status 200 when a handler calls `res.json(...)`
without `res.status(...)`. A missing request body makes every field
read from it falsy. -/

/-- The modelled part of an HTTP JSON response. -/
structure JsonResp where
  status : Nat
  success : Bool
  error : Option String
deriving DecidableEq, Repr

/-- A 200 response with `success: true`. -/
def okResp : JsonResp := { status := 200, success := true, error := none }

/-- A `res.status(400).json(\x7bsuccess: false, error\x7d)` response. -/
def badRequest (e : String) : JsonResp := { status := 400, success := false, error := some e }

/-- A `res.status(500).json(\x7bsuccess: false, error\x7d)` response. -/
def serverError (e : String) : JsonResp := { status := 500, success := false, error := some e }

/-- The `files` field of an ingest-commit body: absent, an array, or some
non-array value. -/
inductive JsFiles where
  | arr (files : List IngestFile)
  | nonArray

/-- The validation error message of POST `/ingest-commit`. -/
def invalidCommitMsg : String :=
  "Invalid commit data structure. Expected: \x7bprojectName, metadata, files\x7d"

/-- Model of the POST `/ingest-commit` route: two 400 validations, then
the service call wrapped with a 500 on a thrown error. -/
def ingestCommitRoute {α : Type} (projectName : Option String)
    (files : Option JsFiles) (svc : Except String α) : JsonResp :=
  if jsTruthyStr projectName = false then badRequest invalidCommitMsg
  else match files with
  | none => badRequest invalidCommitMsg
  | some .nonArray => badRequest "Files must be an array"
  | some (.arr _) =>
    match svc with
    | .ok _ => okResp
    | .error e => serverError e

/-- Model of the GET `/projects` route. -/
def projectsRoute {α : Type} (svc : Except String α) : JsonResp :=
  match svc with
  | .ok _ => okResp
  | .error e => serverError e

/-- Model of the POST `/search` route: 400 when `query` is falsy, else the
service call wrapped with a 500 on a thrown error (`k` and `projectName`
are forwarded to the service and do not affect the response shape). -/
def searchRoute {α : Type} (query : Option String) (svc : Except String α) : JsonResp :=
  if jsTruthyStr query = false then badRequest "Query is required"
  else match svc with
  | .ok _ => okResp
  | .error e => serverError e

/-- Model of the legacy POST `/ingest` route. -/
def ingestRoute {α : Type} (text : Option String) (svc : Except String α) : JsonResp :=
  if jsTruthyStr text = false then badRequest "Text is required"
  else match svc with
  | .ok _ => okResp
  | .error e => serverError e

/-- Model of the GET `/health` route. -/
def healthRoute : JsonResp := okResp

/-- Model of the legacy POST `/query` route: its catch block calls
`res.json(\x7bsuccess: false, error\x7d)` without setting a status, so
Express responds 200 even on a thrown service error. -/
def queryRoute {α : Type} (svc : Except String α) : JsonResp :=
  match svc with
  | .ok _ => okResp
  | .error e => { status := 200, success := false, error := some e }

/-! ## Claim theorems for C6 and C7 -/

/-- C6 counterexample: the claim says a file whose basename is
`package.json` is classified `package-config`, but the `.json` extension
rule runs first in `getFileType`, so `package.json` is classified `json`;
the `package-config` branch is unreachable. -/
theorem getFileType_package_json_counterexample :
    getFileType "package.json" = "json" ∧ getFileType "package.json" ≠ "package-config" := by
  decide

/-- C6 (amended): `getFileType` classifies by basename for dockerfile,
`.env`, `.env.example` and makefile, and unrecognized paths are `unknown`;
but `package.json` is classified `json`, because its `.json` extension rule
precedes and shadows the `package-config` basename rule. -/
theorem getFileType_classification :
    getFileType "Dockerfile" = "docker" ∧
    getFileType "dockerfile" = "docker" ∧
    getFileType ".env" = "environment" ∧
    getFileType ".env.example" = "environment" ∧
    getFileType "Makefile" = "makefile" ∧
    getFileType "makefile" = "makefile" ∧
    getFileType "package.json" = "json" ∧
    getFileType "src/app.py" = "python" ∧
    getFileType "README.md" = "markdown" ∧
    getFileType "unknown.xyz" = "unknown" ∧
    getFileType "noextension" = "unknown" := by
  decide

/-- C7: the security score is 100 minus a fixed penalty per matched
pattern (20, 15, 15, 10, 5), floored at 0, and the deduction is identical
whether a pattern occurs once or many times: one `eval(` and five `eval(`
calls both score 80. -/
theorem calculateSecurityScore_spec :
    (∀ content : String,
      calculateSecurityScore content =
        max 0 (100 - (if evalPattern content then (20 : Int) else 0)
                   - (if innerHTMLPattern content then 15 else 0)
                   - (if documentWritePattern content then 15 else 0)
                   - (if sqlConcatPattern content then 10 else 0)
                   - (if passwordPattern content then 5 else 0))) ∧
    calculateSecurityScore "eval(x)" = 80 ∧
    calculateSecurityScore "eval(a); eval(b); eval(c); eval(d); eval(e);" = 80 ∧
    calculateSecurityScore "let total = a + b;" = 100 := by
  refine ⟨fun content => ?_, by decide, by decide, by decide⟩
  simp only [calculateSecurityScore, securityVulnerabilities, List.foldl]
  cases evalPattern content <;> cases innerHTMLPattern content <;>
    cases documentWritePattern content <;> cases sqlConcatPattern content <;>
    cases passwordPattern content <;> simp

/-! ## Claim theorems for C8 and C4 -/

/-- Numeric bounds on the natural logarithm of 10, derived from the
Mathlib bounds on `log 2` via `3 * log 10 = 10 * log 2 - log 1.024`. -/
theorem log_ten_bounds : 2.3024906 < Real.log 10 ∧ Real.log 10 < 2.3026782 := by
  have h2lo := Real.log_two_gt_d9
  have h2hi := Real.log_two_lt_d9
  have h1024 : Real.log 1024 = 10 * Real.log 2 := by
    rw [show (1024 : ℝ) = 2 ^ 10 by norm_num, Real.log_pow]
    norm_num
  have h1000 : Real.log 1000 = 3 * Real.log 10 := by
    rw [show (1000 : ℝ) = 10 ^ 3 by norm_num, Real.log_pow]
    norm_num
  have hdiv : Real.log 1000 = Real.log 1024 - Real.log 1.024 := by
    rw [show (1000 : ℝ) = 1024 / 1.024 by norm_num,
      Real.log_div (by norm_num) (by norm_num)]
  have hup : Real.log 1.024 ≤ 0.024 := by
    have h := Real.log_le_sub_one_of_pos (show (0 : ℝ) < 1.024 by norm_num)
    linarith
  have hlo : (0.0234375 : ℝ) ≤ Real.log 1.024 := by
    have h := Real.log_le_sub_one_of_pos (show (0 : ℝ) < (1.024 : ℝ)⁻¹ by norm_num)
    rw [Real.log_inv] at h
    have h24 : (1.024 : ℝ)⁻¹ - 1 = -0.0234375 := by norm_num
    rw [h24] at h
    linarith
  have key : 3 * Real.log 10 = 10 * Real.log 2 - Real.log 1.024 := by linarith
  constructor <;> linarith

/-- C8: the maintainability index of `calculateCodeMetrics` is
`max 0 (171 - 5.2 ln cc - 0.23 ln loc - 16.2 ln (cr + 0.1))`, clamped
below at 0 only; at `cc = 1, loc = 10, cr = 0` the value is about 207.8,
in particular above 171, so there is no upper clamp. -/
theorem maintainabilityIndex_spec :
    (∀ cc loc cr : ℝ, maintainabilityIndex cc loc cr =
      max 0 (171 - 5.2 * Real.log cc - 0.23 * Real.log loc - 16.2 * Real.log (cr + 0.1))) ∧
    |maintainabilityIndex 1 10 0 - 207.8| < 0.1 ∧
    171 < maintainabilityIndex 1 10 0 := by
  have hL := log_ten_bounds
  have e1 : Real.log 1 = 0 := Real.log_one
  have e01 : Real.log ((0 : ℝ) + 0.1) = -Real.log 10 := by
    rw [show ((0 : ℝ) + 0.1) = ((10 : ℝ))⁻¹ by norm_num, Real.log_inv]
  have inner : (171 : ℝ) - 5.2 * Real.log 1 - 0.23 * Real.log 10
      - 16.2 * Real.log ((0 : ℝ) + 0.1) = 171 + 15.97 * Real.log 10 := by
    rw [e1, e01]; ring
  have hval : maintainabilityIndex 1 10 0 = 171 + 15.97 * Real.log 10 := by
    unfold maintainabilityIndex
    rw [inner]
    exact max_eq_right (by nlinarith [hL.1])
  refine ⟨fun cc loc cr => rfl, ?_, ?_⟩
  · rw [hval, abs_sub_lt_iff]
    constructor <;> nlinarith [hL.1, hL.2]
  · rw [hval]; nlinarith [hL.1]

/-- C4: cosine similarity is `-1` when a vector is absent or the lengths
differ, otherwise `dot / (sqrt na * sqrt nb + 1e-8)`; concretely the score
of `[1,0]` against itself is `1 / (1 + 1e-8)` (about 1.0) and against
`[0,1]` it is exactly 0. -/
theorem cosine_spec :
    (∀ b, cosine none b = -1) ∧
    (∀ a, cosine (some a) none = -1) ∧
    (∀ a b : List ℝ, a.length ≠ b.length → cosine (some a) (some b) = -1) ∧
    (∀ a b : List ℝ, a.length = b.length →
      cosine (some a) (some b) =
        dotSum a b / (Real.sqrt (sqSum a) * Real.sqrt (sqSum b) + 1 / 100000000)) ∧
    cosine (some [1, 0]) (some [1, 0]) = 1 / (1 + 1 / 100000000) ∧
    |cosine (some [1, 0]) (some [1, 0]) - 1| < 1 / 10000000 ∧
    cosine (some [1, 0]) (some [0, 1]) = 0 := by
  have hformula : ∀ a b : List ℝ, a.length = b.length →
      cosine (some a) (some b) =
        dotSum a b / (Real.sqrt (sqSum a) * Real.sqrt (sqSum b) + 1 / 100000000) := by
    intro a b h
    simp [cosine, h]
  have hone : cosine (some [(1 : ℝ), 0]) (some [1, 0]) = 1 / (1 + 1 / 100000000) := by
    rw [hformula [1, 0] [1, 0] rfl]
    have hd : dotSum [(1 : ℝ), 0] [1, 0] = 1 := by simp [dotSum]
    have hs : sqSum [(1 : ℝ), 0] = 1 := by simp [sqSum]
    rw [hd, hs, Real.sqrt_one]
    norm_num
  refine ⟨fun b => rfl, fun a => rfl, ?_, hformula, hone, ?_, ?_⟩
  · intro a b h
    simp [cosine, h]
  · rw [hone, abs_sub_lt_iff]
    constructor <;> norm_num
  · rw [hformula [1, 0] [0, 1] rfl]
    have hd : dotSum [(1 : ℝ), 0] [0, 1] = 0 := by simp [dotSum]
    rw [hd, zero_div]

/-- Witness for `cosine_spec` at concrete inputs: unequal lengths give
`-1`, and equal lengths give the formula. -/
theorem cosine_spec_witness :
    cosine (some [1, 0]) (some [1, 0, 0]) = -1 ∧
    cosine (some [1, 0]) (some [0, 1]) =
      dotSum [1, 0] [0, 1] /
        (Real.sqrt (sqSum [1, 0]) * Real.sqrt (sqSum [0, 1]) + 1 / 100000000) :=
  ⟨cosine_spec.2.2.1 [1, 0] [1, 0, 0] (by decide),
   cosine_spec.2.2.2.1 [1, 0] [0, 1] rfl⟩

/-! ## Claim theorems for C1 and C2 -/

/-- C1 counterexample: `getConfig` spreads the raw configuration into its
return value, so the stored Gemini API key appears un-masked in the
returned object, next to (and different from) its masked rendering. -/
theorem getConfig_counterexample :
    (getConfig sampleGeminiConfig).geminiApiKey = some "AIzaSy-SECRET-KEY-12345" ∧
    (getConfig sampleGeminiConfig).maskedKeys.gemini = some "AIzaSy-S...2345" ∧
    (some "AIzaSy-SECRET-KEY-12345" : Option String) ≠ some "AIzaSy-S...2345" := by
  decide

/-- C1 (amended): `getConfig` returns every field of the persisted
configuration unchanged — the raw `geminiApiKey`, `huggingfaceApiKey` and
`openaiApiKey` included — together with a `maskedKeys` object holding one
`getMaskedApiKey` value per provider-key field and a `configured` object
of per-provider booleans; the masking lives only in the supplementary
`maskedKeys` object, the raw keys are not removed from the return value. -/
theorem getConfig_spec :
    (∀ cfg : MMConfig,
      (getConfig cfg).llmProvider = cfg.llmProvider ∧
      (getConfig cfg).embeddingProvider = cfg.embeddingProvider ∧
      (getConfig cfg).ollamaModel = cfg.ollamaModel ∧
      (getConfig cfg).geminiApiKey = cfg.geminiApiKey ∧
      (getConfig cfg).huggingfaceApiKey = cfg.huggingfaceApiKey ∧
      (getConfig cfg).openaiApiKey = cfg.openaiApiKey ∧
      (getConfig cfg).maskedKeys = ⟨getMaskedApiKey cfg "gemini",
        getMaskedApiKey cfg "huggingface", getMaskedApiKey cfg "openai"⟩ ∧
      (getConfig cfg).configured = ⟨true, jsTruthyStr cfg.geminiApiKey⟩) ∧
    getMaskedApiKey { defaultConfig with geminiApiKey := some "ABCDEFGHIJKLMNOPQRST" } "gemini"
      = some "ABCDEFGH...QRST" ∧
    getMaskedApiKey { defaultConfig with geminiApiKey := some "ABCDEFGH" } "gemini"
      = some "ABCD..." := by
  refine ⟨fun cfg => ⟨rfl, rfl, rfl, rfl, rfl, rfl, rfl, rfl⟩, by decide, by decide⟩

/-- C2 counterexample: from the default (Ollama) configuration, a switch
to Gemini with a supplied API key that fails validation is rolled back in
its `llmProvider` field and rethrows, but the configuration after the call
is not equal to the configuration before it: the failed provider's API key
remains persisted. -/
theorem setLLMProvider_counterexample :
    (setLLMProvider ⟨true, fun _ => false⟩ defaultConfig "gemini"
        ⟨some "AI-test-key-123456789012345678901234", none⟩).2
      = some "gemini-init-failed" ∧
    (setLLMProvider ⟨true, fun _ => false⟩ defaultConfig "gemini"
        ⟨some "AI-test-key-123456789012345678901234", none⟩).1
      ≠ defaultConfig ∧
    (setLLMProvider ⟨true, fun _ => false⟩ defaultConfig "gemini"
        ⟨some "AI-test-key-123456789012345678901234", none⟩).1.geminiApiKey
      = some "AI-test-key-123456789012345678901234" := by
  decide

/-- The `initializeLLM` call mutates at most the `llmProvider` field of
the configuration (the Gemini fallback rewrites it to Ollama, every other
branch leaves the configuration untouched), so overriding that one field
afterwards erases any difference. -/
theorem initializeLLM_llm_only (env : InitEnv) (cfg : MMConfig) (p : String) :
    { (initializeLLM env cfg).1 with llmProvider := p } = { cfg with llmProvider := p } := by
  obtain ⟨lp, ep, om, gk, hk, ok⟩ := cfg
  by_cases h1 : lp = "ollama"
  · subst h1
    simp [initializeLLM, initializeLLMOllama]
  · by_cases h2 : lp = "gemini"
    · subst h2
      cases ht : jsTruthyStr gk <;>
        simp [initializeLLM, initializeLLMOllama, h1, ht]
    · simp [initializeLLM, h1, h2]

/-- C2 (amended): for every starting configuration, requested provider
and options, when `setLLMProvider` fails during re-initialization of the
requested provider and re-initializing with the restored previous
provider succeeds (returning its configuration unchanged), the call
returns exactly the options-updated configuration with only its
`llmProvider` field rolled back, and rethrows the original error — an API
key or model persisted from the options stays in the saved configuration,
so the net effect is not "as if the switch never happened". Concretely, a
failed Ollama-to-Gemini switch keeps the supplied Gemini key, and a failed
Gemini-to-Ollama switch keeps the supplied Ollama model. By contrast,
`setEmbeddingProvider` performs no rollback at all: a failing switch (an
unsupported provider name) leaves the new provider recorded in the saved
configuration and reports the error. -/
theorem setLLMProvider_rollback_spec :
    (∀ (env : InitEnv) (cfg0 : MMConfig) (provider : String) (options : LLMOptions) (e : String),
      (initializeLLM env (applyLLMOptions cfg0 provider options)).2 = some e →
      initializeLLM env
          { applyLLMOptions cfg0 provider options with llmProvider := cfg0.llmProvider } =
        ({ applyLLMOptions cfg0 provider options with llmProvider := cfg0.llmProvider }, none) →
      setLLMProvider env cfg0 provider options =
        ({ applyLLMOptions cfg0 provider options with llmProvider := cfg0.llmProvider }, some e)) ∧
    (∀ (env : InitEnv) (cfg0 : MMConfig) (k : String),
      cfg0.llmProvider = "ollama" → env.ollamaOk = true → env.geminiOk k = false → k ≠ "" →
      setLLMProvider env cfg0 "gemini" ⟨some k, none⟩ =
        ({ cfg0 with geminiApiKey := some k }, some "gemini-init-failed")) ∧
    (∀ (env : InitEnv) (cfg0 : MMConfig) (key m : String),
      cfg0.llmProvider = "gemini" → cfg0.geminiApiKey = some key → key ≠ "" →
      env.geminiOk key = true → env.ollamaOk = false → m ≠ "" →
      setLLMProvider env cfg0 "ollama" ⟨none, some m⟩ =
        ({ cfg0 with ollamaModel := m }, some "ollama-init-failed")) ∧
    (∀ (cfg0 : MMConfig) (provider : String) (apiKey : Option String),
      provider ≠ "ollama" → provider ≠ "huggingface" → provider ≠ "openai" →
      (setEmbeddingProvider cfg0 provider apiKey).1.embeddingProvider = provider ∧
      (setEmbeddingProvider cfg0 provider apiKey).2 =
        some ("Unsupported embedding provider: " ++ provider)) := by
  refine ⟨?_, ?_, ?_, ?_⟩
  · intro env cfg0 provider options e h1 h2
    rcases h4 : initializeLLM env (applyLLMOptions cfg0 provider options) with ⟨cfg4, r⟩
    rw [h4] at h1
    have h1' : r = some e := h1
    subst h1'
    have hR : { cfg4 with llmProvider := cfg0.llmProvider } =
        { applyLLMOptions cfg0 provider options with llmProvider := cfg0.llmProvider } := by
      have h5 := initializeLLM_llm_only env (applyLLMOptions cfg0 provider options)
        cfg0.llmProvider
      rw [h4] at h5
      exact h5
    simp only [setLLMProvider, h4]
    rw [hR, h2]
  · intro env cfg0 k hA hOll hGem hk
    have hke : k.isEmpty = false := by
      cases hke : k.isEmpty
      · rfl
      · exact absurd ((String.isEmpty_iff k).1 hke) hk
    obtain ⟨lp, ep, om, gk, hfk, ok⟩ := cfg0
    simp only [MMConfig.llmProvider] at hA
    subst hA
    simp [setLLMProvider, applyLLMOptions, initializeLLM, initializeLLMOllama,
      jsTruthyStr, hke, hGem, hOll]
  · intro env cfg0 key m hA hkey hkne hg ho hm
    have hke : key.isEmpty = false := by
      cases hke : key.isEmpty
      · rfl
      · exact absurd ((String.isEmpty_iff key).1 hke) hkne
    have hme : m.isEmpty = false := by
      cases hme : m.isEmpty
      · rfl
      · exact absurd ((String.isEmpty_iff m).1 hme) hm
    obtain ⟨lp, ep, om, gk, hfk, ok⟩ := cfg0
    simp only [MMConfig.llmProvider] at hA
    simp only [MMConfig.geminiApiKey] at hkey
    subst hA
    subst hkey
    simp [setLLMProvider, applyLLMOptions, initializeLLM, initializeLLMOllama,
      jsTruthyStr, hke, hme, hg, ho]
  · intro cfg0 provider apiKey h1 h2 h3
    constructor
    · cases hk : jsTruthyStr apiKey <;>
        simp [setEmbeddingProvider, hk, h2, h3]
    · cases hk : jsTruthyStr apiKey <;>
        simp [setEmbeddingProvider, initializeEmbedding, hk, h1, h2, h3]

/-- Witness for `setLLMProvider_rollback_spec`: the generic rollback
statement at a concrete failing Ollama-to-Gemini switch with an API key
in the options, the Gemini-to-Ollama instance with a model in the
options, and a concrete unsupported embedding provider. -/
theorem setLLMProvider_rollback_witness :
    setLLMProvider ⟨true, fun _ => false⟩ defaultConfig "gemini" ⟨some "AI-key-0123456789", none⟩ =
      ({ defaultConfig with geminiApiKey := some "AI-key-0123456789" }, some "gemini-init-failed") ∧
    setLLMProvider ⟨false, fun _ => true⟩ sampleGeminiConfig "ollama" ⟨none, some "llama3"⟩ =
      ({ sampleGeminiConfig with ollamaModel := "llama3" }, some "ollama-init-failed") ∧
    (setEmbeddingProvider defaultConfig "cohere" none).1.embeddingProvider = "cohere" ∧
    (setEmbeddingProvider defaultConfig "cohere" none).2 =
      some ("Unsupported embedding provider: " ++ "cohere") :=
  ⟨setLLMProvider_rollback_spec.1 ⟨true, fun _ => false⟩ defaultConfig "gemini"
      ⟨some "AI-key-0123456789", none⟩ "gemini-init-failed" (by decide) (by decide),
   setLLMProvider_rollback_spec.2.2.1 ⟨false, fun _ => true⟩ sampleGeminiConfig
      "AIzaSy-SECRET-KEY-12345" "llama3" rfl rfl (by decide) rfl rfl (by decide),
   (setLLMProvider_rollback_spec.2.2.2 defaultConfig "cohere" none
      (by decide) (by decide) (by decide)).1,
   (setLLMProvider_rollback_spec.2.2.2 defaultConfig "cohere" none
      (by decide) (by decide) (by decide)).2⟩

/-! ## Claim theorems for C3, C5 and C10 -/

/-- The results collected by the `ingestCommit` loop are exactly one
`fileOutcome` entry per non-skipped file, in payload order, independent of
the store contents. -/
theorem ingestCommitGo_results {E : Type} (clean : String → String → String)
    (idOf : IngestFile → String) (embedOf : IngestFile → Except String E)
    (pn : String) (meta : CommitMeta) (now : String) :
    ∀ (files : List IngestFile) (db : List (DocRow E)),
      (ingestCommitGo clean idOf embedOf pn meta now db files).2 =
        (files.filter (fun f => !(skipsFile clean f))).map
          (fileOutcome clean idOf embedOf) := by
  intro files
  induction files with
  | nil => intro db; rfl
  | cons f rest ih =>
    intro db
    cases hs : skipsFile clean f
    · cases he : embedOf f with
      | ok v => simp [ingestCommitGo, ingestDocument, hs, he, ih, fileOutcome]
      | error e => simp [ingestCommitGo, ingestDocument, hs, he, ih, fileOutcome]
    · simp [ingestCommitGo, hs, ih]

/-- Every `fileOutcome` entry is a success entry or an error entry, so the
two filtered counts plus the skipped count recover the file count. -/
theorem fileOutcome_counts {E : Type} (clean : String → String → String)
    (idOf : IngestFile → String) (embedOf : IngestFile → Except String E) :
    ∀ files : List IngestFile,
      (((files.filter (fun f => !(skipsFile clean f))).map
          (fileOutcome clean idOf embedOf)).filter
            (fun r => r.status == "success")).length +
      (((files.filter (fun f => !(skipsFile clean f))).map
          (fileOutcome clean idOf embedOf)).filter
            (fun r => r.status == "error")).length +
      (files.filter (skipsFile clean)).length = files.length := by
  intro files
  induction files with
  | nil => rfl
  | cons f rest ih =>
    cases hs : skipsFile clean f
    · cases he : embedOf f with
      | ok v =>
        simp only [List.filter_cons, hs, he, Bool.not_false, if_pos, List.map_cons,
          fileOutcome, List.length_cons]
        simp [fileOutcome, he] at ih ⊢
        omega
      | error e =>
        simp only [List.filter_cons, hs, he, Bool.not_false, if_pos, List.map_cons,
          fileOutcome, List.length_cons]
        simp [fileOutcome, he] at ih ⊢
        omega
    · simp only [List.filter_cons, hs, Bool.not_true, List.length_cons]
      simp at ih ⊢
      omega

/-- C3: `ingestCommit` processes each file independently: a file whose
cleaned content is empty appears in neither the success nor the error
results (it is skipped); an error while ingesting one file is recorded
without aborting the rest; and the summary satisfies `total_files` =
payload size, `successful` = success-entry count, `failed` = error-entry
count, with `successful + failed` short of `total_files` by exactly the
number of skipped files. -/
theorem ingestCommit_partial_failure :
    ∀ (E : Type) (clean : String → String → String) (idOf : IngestFile → String)
      (embedOf : IngestFile → Except String E) (pn : String) (meta : CommitMeta)
      (now : String) (db : List (DocRow E)) (files : List IngestFile),
      (ingestCommit clean idOf embedOf pn meta now db files).2.total_files = files.length ∧
      (ingestCommit clean idOf embedOf pn meta now db files).2.successful =
        (((ingestCommit clean idOf embedOf pn meta now db files).2.results).filter
          (fun r => r.status == "success")).length ∧
      (ingestCommit clean idOf embedOf pn meta now db files).2.failed =
        (((ingestCommit clean idOf embedOf pn meta now db files).2.results).filter
          (fun r => r.status == "error")).length ∧
      (ingestCommit clean idOf embedOf pn meta now db files).2.results =
        (files.filter (fun f => !(skipsFile clean f))).map
          (fileOutcome clean idOf embedOf) ∧
      (ingestCommit clean idOf embedOf pn meta now db files).2.successful +
        (ingestCommit clean idOf embedOf pn meta now db files).2.failed +
        (files.filter (skipsFile clean)).length =
        (ingestCommit clean idOf embedOf pn meta now db files).2.total_files := by
  intro E clean idOf embedOf pn meta now db files
  have hres := ingestCommitGo_results clean idOf embedOf pn meta now files db
  refine ⟨rfl, rfl, rfl, ?_, ?_⟩
  · simpa [ingestCommit] using hres
  · have hcount := fileOutcome_counts clean idOf embedOf files
    simp only [ingestCommit, hres]
    omega

/-- C5: `searchAndGenerate` scores each document after the optional
project filter, sorts descending by score, and returns exactly the first
`k` of the sorted scored documents as sources: the sorted list is a
permutation of the scored list, its scores are pairwise descending (hence
every kept source dominates every dropped document), the returned sources
are pairwise descending in relevance, and exactly `min k n` sources are
returned — no relevance cutoff ever removes one of the top `k`. -/
theorem searchAndGenerate_top_k :
    ∀ (queryEmb : List ℝ) (db : List (DocRow (List ℝ))) (k : Nat) (pn : Option String),
      searchSources queryEmb db k pn =
        ((sortByScoreDesc (scoreDocs queryEmb (filteredDocs pn db))).take k).map mkSource ∧
      List.Pairwise (fun x y => y.2 ≤ x.2)
        (sortByScoreDesc (scoreDocs queryEmb (filteredDocs pn db))) ∧
      (sortByScoreDesc (scoreDocs queryEmb (filteredDocs pn db))).Perm
        (scoreDocs queryEmb (filteredDocs pn db)) ∧
      (searchSources queryEmb db k pn).length = min k (filteredDocs pn db).length ∧
      List.Pairwise (fun s t => t.relevance ≤ s.relevance) (searchSources queryEmb db k pn) := by
  intro qe db k pn
  have hsorted : List.Pairwise (fun x y : DocRow (List ℝ) × ℝ => y.2 ≤ x.2)
      (sortByScoreDesc (scoreDocs qe (filteredDocs pn db))) := by
    have h : (List.mergeSort (scoreDocs qe (filteredDocs pn db))
        (fun x y => decide (y.2 ≤ x.2))).Pairwise
        (fun x y => decide (y.2 ≤ x.2) = true) :=
      @List.sorted_mergeSort (DocRow (List ℝ) × ℝ) (fun x y => decide (y.2 ≤ x.2))
        (fun a b c hab hbc =>
          decide_eq_true (le_trans (of_decide_eq_true hbc) (of_decide_eq_true hab)))
        (fun a b => by rcases le_total b.2 a.2 with h | h <;> simp [h])
        (scoreDocs qe (filteredDocs pn db))
    unfold sortByScoreDesc
    exact h.imp (fun hab => of_decide_eq_true hab)
  refine ⟨rfl, hsorted, List.mergeSort_perm _ _, ?_, ?_⟩
  · simp [searchSources, sortByScoreDesc, scoreDocs]
  · have htake : List.Pairwise (fun x y : DocRow (List ℝ) × ℝ => y.2 ≤ x.2)
        ((sortByScoreDesc (scoreDocs qe (filteredDocs pn db))).take k) :=
      List.Pairwise.sublist (List.take_sublist k _) hsorted
    exact List.pairwise_map.mpr (htake.imp (fun hab => hab))

/-- Ids already in the store survive an upsert: an existing id is updated
in place, a fresh id is appended. -/
theorem mem_dbIds_upsert {E : Type} (db : List (DocRow E)) (r : DocRow E)
    (i : String) (h : i ∈ dbIds db) : i ∈ dbIds (upsert db r) := by
  unfold upsert
  cases hc : db.any (fun x => x.id == r.id)
  · simp [dbIds, hc] at h ⊢
    exact Or.inl h
  · simp [dbIds, hc, List.mem_map] at h ⊢
    obtain ⟨x, hx, rfl⟩ := h
    refine ⟨x, hx, ?_⟩
    by_cases hxr : x.id = r.id <;> simp [hxr]

/-- Ids survive `ingestDocument` (the store is untouched on an embedding
error, upserted on success). -/
theorem mem_dbIds_ingestDocument {E : Type} (db : List (DocRow E)) (id text : String)
    (md : DocMetadata) (er : Except String E) (i : String) (h : i ∈ dbIds db) :
    i ∈ dbIds (ingestDocument db id text md er).1 := by
  cases er with
  | error e => simpa [ingestDocument] using h
  | ok emb => simpa [ingestDocument] using mem_dbIds_upsert db _ i h

/-- Ids survive the whole `ingestCommit` loop. -/
theorem mem_dbIds_ingestCommitGo {E : Type} (clean : String → String → String)
    (idOf : IngestFile → String) (embedOf : IngestFile → Except String E)
    (pn : String) (meta : CommitMeta) (now : String) :
    ∀ (files : List IngestFile) (db : List (DocRow E)) (i : String),
      i ∈ dbIds db → i ∈ dbIds (ingestCommitGo clean idOf embedOf pn meta now db files).1 := by
  intro files
  induction files with
  | nil => intro db i h; simpa [ingestCommitGo] using h
  | cons f rest ih =>
    intro db i h
    cases hs : skipsFile clean f
    · cases he : embedOf f with
      | ok v =>
        simp only [ingestCommitGo, hs, Bool.false_eq_true, if_neg, ingestDocument, he]
        exact ih _ i (mem_dbIds_upsert db _ i h)
      | error e =>
        simp only [ingestCommitGo, hs, Bool.false_eq_true, if_neg, ingestDocument, he]
        exact ih _ i h
    · simp only [ingestCommitGo, hs, if_pos]
      exact ih _ i h

/-- Ids survive the `bulkIngestDemo` loop, whether or not it aborts on a
thrown embedding error. -/
theorem mem_dbIds_bulkIngestDemoGo {E : Type} (idOf : Nat → String)
    (embedOf : Nat → Except String E) (today : String) :
    ∀ (n start : Nat) (db : List (DocRow E)) (i : String),
      i ∈ dbIds db → i ∈ dbIds (bulkIngestDemoGo idOf embedOf today start n db).1 := by
  intro n
  induction n with
  | zero => intro start db i h; simpa [bulkIngestDemoGo] using h
  | succ m ih =>
    intro start db i h
    cases he : embedOf start with
    | ok v =>
      have h2 : i ∈ dbIds (upsert db
          { id := idOf start, text := demoText start,
            metadata := demoMetadata start today, embedding := v }) :=
        mem_dbIds_upsert db _ i h
      have h3 := ih (start + 1) _ i h2
      simp only [bulkIngestDemoGo, ingestDocument, he]
      rcases hrec : bulkIngestDemoGo idOf embedOf today (start + 1) m (upsert db
          { id := idOf start, text := demoText start,
            metadata := demoMetadata start today, embedding := v }) with ⟨db3, res⟩
      rw [hrec] at h3
      cases res <;> simpa using h3
    | error e =>
      simpa [bulkIngestDemoGo, ingestDocument, he] using h

/-- Ids survive any single RAG Service operation. -/
theorem mem_dbIds_applyOp {E : Type} (op : RagOp E) (db : List (DocRow E))
    (i : String) (h : i ∈ dbIds db) : i ∈ dbIds (applyOp op db) := by
  cases op with
  | ingestDoc id text md er => exact mem_dbIds_ingestDocument db id text md er i h
  | ingestCommitOp clean idOf embedOf pn meta now files =>
    simpa [applyOp, ingestCommit] using
      mem_dbIds_ingestCommitGo clean idOf embedOf pn meta now files db i h
  | searchOp qe k pn => simpa [applyOp] using h
  | getProjectsOp => simpa [applyOp] using h
  | bulkIngestDemoOp count idOf embedOf today =>
    simpa [applyOp, bulkIngestDemo] using
      mem_dbIds_bulkIngestDemoGo idOf embedOf today count 0 db i h

/-- C10: no RAG Service operation ever deletes a document row — after any
sequence of `ingestDocument`, `ingestCommit`, `searchAndGenerate`,
`getProjects` and `bulkIngestDemo` operations, every document id present
before is still present (ingestion only upserts; search and project
listing only read; no code path deletes). -/
theorem documents_never_deleted :
    ∀ (E : Type) (ops : List (RagOp E)) (db : List (DocRow E)) (i : String),
      i ∈ dbIds db → i ∈ dbIds (runOps ops db) := by
  intro E ops
  induction ops with
  | nil => intro db i h; simpa [runOps] using h
  | cons op rest ih =>
    intro db i h
    have h2 : runOps (op :: rest) db = runOps rest (applyOp op db) := rfl
    rw [h2]
    exact ih (applyOp op db) i (mem_dbIds_applyOp op db i h)

/-- Witness for `documents_never_deleted`: a store holding `doc-1`
still holds it after a single-document ingestion, a search and a project
listing. -/
theorem documents_never_deleted_witness :
    "doc-1" ∈ dbIds (runOps
      [RagOp.ingestDoc "doc-2" "demo text" sampleMetadata (Except.ok ()),
       RagOp.searchOp [] 5 none, RagOp.getProjectsOp]
      [{ id := "doc-1", text := "demo", metadata := sampleMetadata, embedding := () }]) :=
  documents_never_deleted Unit
    [RagOp.ingestDoc "doc-2" "demo text" sampleMetadata (Except.ok ()),
     RagOp.searchOp [] 5 none, RagOp.getProjectsOp]
    [{ id := "doc-1", text := "demo", metadata := sampleMetadata, embedding := () }]
    "doc-1" (by decide)

/-! ## Claim theorems for C9 -/

/-- A non-empty string wrapped in `some` is truthy. -/
theorem jsTruthyStr_some_ne {s : String} (h : s ≠ "") : jsTruthyStr (some s) = true := by
  have he : s.isEmpty = false := by
    cases hse : s.isEmpty
    · rfl
    · exact absurd ((String.isEmpty_iff s).1 hse) h
  simp [jsTruthyStr, he]

/-- C9 counterexample: when the legacy POST `/query` route's service call
throws, the route answers with HTTP status 200 (Express's default for a
bare `res.json`), not a 400- or 500-class status, with body
`success: false` and the error message. -/
theorem queryRoute_counterexample :
    queryRoute (Except.error "search failed" : Except String Unit) =
      { status := 200, success := false, error := some "search failed" } ∧
    (queryRoute (Except.error "search failed" : Except String Unit)).status ≠ 400 ∧
    (queryRoute (Except.error "search failed" : Except String Unit)).status ≠ 500 := by
  decide

/-- C9 (amended): every failing route except POST `/query` responds with
HTTP status 400 (failed input validation) or 500 (thrown service error)
and body `success: false` plus the error message; the legacy POST `/query`
route returns the same failure body but with HTTP status 200, because its
catch block never sets a status. -/
theorem failing_routes_status :
    (∀ e : String, projectsRoute (Except.error e : Except String Unit) = serverError e) ∧
    (∀ q e : String, q ≠ "" →
      searchRoute (some q) (Except.error e : Except String Unit) = serverError e) ∧
    (∀ svc : Except String Unit, searchRoute none svc = badRequest "Query is required") ∧
    (∀ t e : String, t ≠ "" →
      ingestRoute (some t) (Except.error e : Except String Unit) = serverError e) ∧
    (∀ svc : Except String Unit, ingestRoute none svc = badRequest "Text is required") ∧
    (∀ (p : String) (files : List IngestFile) (e : String), p ≠ "" →
      ingestCommitRoute (some p) (some (JsFiles.arr files))
        (Except.error e : Except String Unit) = serverError e) ∧
    (∀ (p : String) (svc : Except String Unit), p ≠ "" →
      ingestCommitRoute (some p) (some JsFiles.nonArray) svc =
        badRequest "Files must be an array") ∧
    (∀ (files : Option JsFiles) (svc : Except String Unit),
      ingestCommitRoute none files svc = badRequest invalidCommitMsg) ∧
    (∀ e : String, queryRoute (Except.error e : Except String Unit) =
      { status := 200, success := false, error := some e }) := by
  refine ⟨fun e => rfl, ?_, ?_, ?_, ?_, ?_, ?_, ?_, fun e => rfl⟩
  · intro q e hq
    simp [searchRoute, jsTruthyStr_some_ne hq]
  · intro svc
    simp [searchRoute, jsTruthyStr]
  · intro t e ht
    simp [ingestRoute, jsTruthyStr_some_ne ht]
  · intro svc
    simp [ingestRoute, jsTruthyStr]
  · intro p files e hp
    simp [ingestCommitRoute, jsTruthyStr_some_ne hp]
  · intro p svc hp
    simp [ingestCommitRoute, jsTruthyStr_some_ne hp]
  · intro files svc
    simp [ingestCommitRoute, jsTruthyStr]

/-- Witness for `failing_routes_status` at concrete requests and errors. -/
theorem failing_routes_status_witness :
    searchRoute (some "hello") (Except.error "boom" : Except String Unit) = serverError "boom" ∧
    ingestCommitRoute (some "proj") (some JsFiles.nonArray) (Except.ok () : Except String Unit) =
      badRequest "Files must be an array" ∧
    ingestRoute (some "text") (Except.error "boom" : Except String Unit) = serverError "boom" ∧
    queryRoute (Except.error "boom" : Except String Unit) =
      { status := 200, success := false, error := some "boom" } :=
  ⟨failing_routes_status.2.1 "hello" "boom" (by decide),
   failing_routes_status.2.2.2.2.2.2.1 "proj" (Except.ok ()) (by decide),
   failing_routes_status.2.2.2.1 "text" "boom" (by decide),
   failing_routes_status.2.2.2.2.2.2.2.2 "boom"⟩
